import Mathlib

/-!
Shallow embedding of the Lighter order-execution engine
(`src/trader/lighter_trader.go`).

Modelling conventions:
* Go strings (byte slices over ASCII symbols) are `List Char`.
* Go `float64` quantities and prices are `ℚ`; Go's float→integer
  conversions truncate toward zero, embedded as `truncQ`.
* Network calls (HTTP fetches, transaction signing) are external
  collaborators: each is an input field of `LighterEnv` holding the
  `Except`-typed result the call would return.  The JSON-decoding and
  status-code plumbing of a call collapses into that `Except` value.
* The mutable `marketInfoCache` map is threaded explicitly as a value of
  type `MarketCache`; functions that may mutate it return the new cache.
* The side-effecting submission/fetch calls a workflow performs are
  recorded in an event trace (`List Ev`) so that ordering and
  presence/absence of calls can be stated.
-/

/-- Go strings are modelled as lists of characters. -/
abbrev GoStr := List Char

/-- Go's float→integer conversion: truncation toward zero.
`Int.tdiv` is exactly division truncating toward zero. -/
def truncQ (q : ℚ) : ℤ := Int.tdiv q.num (q.den : ℤ)

/-- `lighterOrderBook` (market metadata record).  The string fields of the
Go struct (status, fees, minimum amounts) are never read by the engine
logic and are omitted. -/
structure lighterOrderBook where
  Symbol : GoStr
  MarketID : ℕ
  SupportedSizeDecimals : ℕ
  SupportedPriceDecimals : ℕ
deriving DecidableEq, Repr

/-- The `marketInfoCache` map: coin key → market metadata. -/
def MarketCache := GoStr → Option lighterOrderBook

/-- Go map assignment `m[k] = v`. -/
def cacheInsert (m : MarketCache) (k : GoStr) (v : lighterOrderBook) : MarketCache :=
  fun s => if s = k then some v else m s

/-- The storing loop of `loadMarketInfo`: each fetched order book is
assigned into the existing cache map (`t.marketInfoCache[market.Symbol] = market`). -/
def storeOrderBooks (m : MarketCache) (books : List lighterOrderBook) : MarketCache :=
  books.foldl (fun acc b => cacheInsert acc b.Symbol b) m

/-- `loadMarketInfo`: fetch the full order-book list; on any fetch /
decode / status failure return the error (cache untouched); on success
store every fetched market into the cache map. -/
def loadMarketInfo (m : MarketCache) (fetched : Except String (List lighterOrderBook)) :
    Except String MarketCache :=
  match fetched with
  | .error e => .error e
  | .ok books => .ok (storeOrderBooks m books)

/-- `convertSymbolToLighterCoin`: strip a trailing "USDT" when the symbol
is strictly longer than 4 characters (`len(symbol) > 4 && symbol[len(symbol)-4:] == "USDT"`). -/
def convertSymbolToLighterCoin (symbol : GoStr) : GoStr :=
  if 4 < symbol.length ∧ symbol.drop (symbol.length - 4) = "USDT".toList then
    symbol.take (symbol.length - 4)
  else
    symbol

/-- `convertToBaseAmount`: multiply by `10^SupportedSizeDecimals` (fallback
`10^4` on a cache miss) and truncate to `int64`. -/
def convertToBaseAmount (m : MarketCache) (symbol : GoStr) (quantity : ℚ) : ℤ :=
  match m (convertSymbolToLighterCoin symbol) with
  | some marketInfo => truncQ (quantity * (10 : ℚ) ^ marketInfo.SupportedSizeDecimals)
  | none => truncQ (quantity * 10000)

/-- `convertToLighterPrice`: multiply by `10^SupportedPriceDecimals`
(fallback `10^4` on a cache miss) and truncate to an integer (the Go
`uint32` conversion, whose value for in-range nonnegative prices is this
truncation). -/
def convertToLighterPrice (m : MarketCache) (symbol : GoStr) (price : ℚ) : ℤ :=
  match m (convertSymbolToLighterCoin symbol) with
  | some marketInfo => truncQ (price * (10 : ℚ) ^ marketInfo.SupportedPriceDecimals)
  | none => truncQ (price * 10000)

/-- `getMarketIndex`: probe the cache for the coin key; on a miss reload
the market info once and retry; a second miss (or a failed reload) is the
not-found error.  Returns the market id and the possibly-updated cache. -/
def getMarketIndex (m : MarketCache) (reload : Except String (List lighterOrderBook))
    (symbol : GoStr) : Except String ℕ × MarketCache :=
  match m (convertSymbolToLighterCoin symbol) with
  | some marketInfo => (.ok marketInfo.MarketID, m)
  | none =>
    match loadMarketInfo m reload with
    | .error _ => (.error ("未找到市场 " ++ String.mk symbol ++ " 的索引"), m)
    | .ok m1 =>
      match m1 (convertSymbolToLighterCoin symbol) with
      | some marketInfo => (.ok marketInfo.MarketID, m1)
      | none => (.error ("未找到市场 " ++ String.mk symbol ++ " 的索引"), m1)

/-- `lighterAccountPosition` with numeric string fields already parsed
(`strconv.ParseFloat`); `Sign` is the API's separate sign field. -/
structure lighterAccountPosition where
  Symbol : GoStr
  Sign : ℤ
  Position : ℚ
  AvgEntryPrice : ℚ
  PositionValue : ℚ
  UnrealizedPnl : ℚ
  LiquidationPrice : ℚ
  InitialMarginFraction : ℚ
deriving DecidableEq, Repr

/-- One entry of the `GetPositions` output (the `posMap` map). -/
structure PositionOut where
  symbol : GoStr
  side : String
  positionAmt : ℚ
  entryPrice : ℚ
  markPrice : ℚ
  unRealizedProfit : ℚ
  leverage : ℚ
  liquidationPrice : ℚ
deriving DecidableEq, Repr

/-- The per-position body of the `GetPositions` loop (after the zero
filter): side/amount from `pos.Sign`, mark price `positionValue/|position|`
when the quantity is nonzero, leverage `100/imf` when `imf > 0` (else the
Go zero value). -/
def mkPositionOut (p : lighterAccountPosition) : PositionOut :=
  { symbol := p.Symbol ++ "USDT".toList
    side := if 0 < p.Sign then "long" else "short"
    positionAmt := if 0 < p.Sign then p.Position else |p.Position|
    entryPrice := p.AvgEntryPrice
    markPrice := if p.Position ≠ 0 then p.PositionValue / |p.Position| else 0
    unRealizedProfit := p.UnrealizedPnl
    leverage := if 0 < p.InitialMarginFraction then 100 / p.InitialMarginFraction else 0
    liquidationPrice := p.LiquidationPrice }

/-- The `GetPositions` loop: positions with zero raw quantity are skipped
(`continue`), the rest are projected by `mkPositionOut`. -/
def positionsOf : List lighterAccountPosition → List PositionOut
  | [] => []
  | p :: rest =>
    if p.Position = 0 then positionsOf rest else mkPositionOut p :: positionsOf rest

/-- `GetPositions`: fetch the account record (collapsed into the
`Except`-typed input) and project its position list. -/
def GetPositions (accountResult : Except String (List lighterAccountPosition)) :
    Except String (List PositionOut) :=
  match accountResult with
  | .error e => .error e
  | .ok ps => .ok (positionsOf ps)

/-- Order types used by the engine (`txtypes`). -/
inductive OrderTypeT
  | LimitOrder
  | StopLossOrder
  | TakeProfitOrder
deriving DecidableEq, Repr

/-- Time-in-force constants used by the engine (`txtypes`). -/
inductive TimeInForceT
  | ImmediateOrCancel
  | ImmediateCancelAll
deriving DecidableEq, Repr

/-- Margin-mode constant used by the engine (`txtypes.CrossMargin`). -/
inductive MarginModeT
  | CrossMargin
deriving DecidableEq, Repr

/-- `txtypes.NilOrderTriggerPrice` (external library constant; its exact
value is irrelevant to the claims). -/
def NilOrderTriggerPrice : ℤ := 0

/-- `txtypes.NilOrderExpiry` (external library constant; its exact value
is irrelevant to the claims). -/
def NilOrderExpiry : ℤ := -1

/-- `types.CreateOrderTxReq` (the Go field `Type` is spelled `OrderType`
here because `Type` is a Lean keyword). -/
structure CreateOrderTxReq where
  MarketIndex : ℕ
  ClientOrderIndex : ℤ
  BaseAmount : ℤ
  Price : ℤ
  IsAsk : ℕ
  OrderType : OrderTypeT
  TimeInForce : TimeInForceT
  ReduceOnly : ℕ
  TriggerPrice : ℤ
  OrderExpiry : ℤ
deriving DecidableEq, Repr

/-- `types.UpdateLeverageTxReq`. -/
structure UpdateLeverageTxReq where
  MarketIndex : ℕ
  InitialMarginFraction : ℤ
  MarginMode : MarginModeT
deriving DecidableEq, Repr

/-- `types.CancelAllOrdersTxReq`: the request carries only a time-in-force
and a timestamp — it has no market or symbol field. -/
structure CancelAllOrdersTxReq where
  TimeInForce : TimeInForceT
  Time : ℤ
deriving DecidableEq, Repr

/-- Result of a signed transaction construction. -/
structure TxInfo where
  SignedHash : String
deriving DecidableEq, Repr

/-- External calls a workflow issues, recorded as an event trace. -/
inductive Ev
  | getPositions
  | getMarketPrice (symbol : GoStr)
  | updateLeverage (req : UpdateLeverageTxReq)
  | createOrder (req : CreateOrderTxReq)
  | cancelAll (symbol : GoStr)
deriving DecidableEq, Repr

/-- The external collaborators (data client and transaction signer),
given by the results their calls return. -/
structure LighterEnv where
  accountResult : Except String (List lighterAccountPosition)
  reloadBooks : Except String (List lighterOrderBook)
  priceResult : Except String ℚ
  updateLeverageResult : UpdateLeverageTxReq → Except String TxInfo
  createOrderResult : CreateOrderTxReq → Except String TxInfo
  cancelAllResult : CancelAllOrdersTxReq → Except String TxInfo
  nowMillis : ℤ

/-- Result map of a successful open/close workflow. -/
structure OrderResult where
  orderId : ℤ
  symbol : GoStr
  status : String
  hash : String
deriving DecidableEq, Repr

/-- `GetMarketPrice`: cache probe for the coin key (miss is an error),
then the order-book-details fetch and mark/mid price extraction, collapsed
into `env.priceResult`. -/
def GetMarketPrice (m : MarketCache) (env : LighterEnv) (symbol : GoStr) : Except String ℚ :=
  match m (convertSymbolToLighterCoin symbol) with
  | none => .error ("未找到市场 " ++ String.mk symbol ++ " 的信息")
  | some _ => env.priceResult

/-- The cancel-all request `CancelAllOrders` constructs: time-in-force
`ImmediateCancelAll` and the current timestamp; the symbol argument is not
used. -/
def cancelAllRequest (symbol : GoStr) (nowMillis : ℤ) : CancelAllOrdersTxReq :=
  { TimeInForce := .ImmediateCancelAll, Time := nowMillis }

/-- `CancelAllOrders`. -/
def CancelAllOrders (env : LighterEnv) (symbol : GoStr) : Except String TxInfo :=
  match env.cancelAllResult (cancelAllRequest symbol env.nowMillis) with
  | .error e => .error ("取消挂单失败: " ++ e)
  | .ok tx => .ok tx

/-- `imf := uint16(10000 / leverage)`: Go integer division truncates
toward zero and panics on a zero divisor (modelled as `none`); the
`uint16` conversion keeps the low 16 bits. -/
def computeIMF (leverage : ℤ) : Option ℤ :=
  if leverage = 0 then none else some (Int.tdiv 10000 leverage % 65536)

/-- `SetLeverage`: resolve the market index (may reload the cache), build
the update-leverage transaction with the computed IMF and cross margin.
A zero-divisor panic surfaces as a runtime-error result. -/
def SetLeverage (m : MarketCache) (env : LighterEnv) (symbol : GoStr) (leverage : ℤ) :
    Except String Unit × MarketCache × List Ev :=
  match getMarketIndex m env.reloadBooks symbol with
  | (.error e, m1) => (.error e, m1, [])
  | (.ok marketIndex, m1) =>
    match computeIMF leverage with
    | none => (.error "runtime error: integer divide by zero", m1, [])
    | some imf =>
      match env.updateLeverageResult
          { MarketIndex := marketIndex, InitialMarginFraction := imf,
            MarginMode := .CrossMargin } with
      | .error e =>
        (.error ("设置杠杆失败: " ++ e), m1,
         [.updateLeverage { MarketIndex := marketIndex, InitialMarginFraction := imf,
                            MarginMode := .CrossMargin }])
      | .ok _ =>
        (.ok (), m1,
         [.updateLeverage { MarketIndex := marketIndex, InitialMarginFraction := imf,
                            MarginMode := .CrossMargin }])

/-- The quantity-resolution loop of `CloseLong`/`CloseShort` when the
caller passes `quantity == 0`: the first position matching the symbol and
side supplies the amount (`break`); with no match the quantity stays 0. -/
def resolveCloseQuantity (positions : List PositionOut) (symbol : GoStr) (side : String) : ℚ :=
  match positions with
  | [] => 0
  | p :: rest =>
    if p.symbol = symbol ∧ p.side = side then p.positionAmt
    else resolveCloseQuantity rest symbol side

/-- The close order built by `CloseLong`: sell (`IsAsk = 1`), reduce-only
IOC limit order at `price * 0.99`. -/
def closeLongReq (m : MarketCache) (env : LighterEnv) (symbol : GoStr)
    (quantity price : ℚ) (marketIndex : ℕ) : CreateOrderTxReq :=
  { MarketIndex := marketIndex
    ClientOrderIndex := env.nowMillis
    BaseAmount := convertToBaseAmount m symbol quantity
    Price := convertToLighterPrice m symbol (price * (99 / 100))
    IsAsk := 1
    OrderType := .LimitOrder
    TimeInForce := .ImmediateOrCancel
    ReduceOnly := 1
    TriggerPrice := NilOrderTriggerPrice
    OrderExpiry := NilOrderExpiry }

/-- The part of `CloseLong` after the quantity has been resolved: market
index, price, submit the reduce-only sell; ONLY on a successful submission
the best-effort cancel-all follows (a failed submission returns at once). -/
def closeLongRest (m : MarketCache) (env : LighterEnv) (symbol : GoStr)
    (quantity : ℚ) (ev0 : List Ev) : Except String OrderResult × MarketCache × List Ev :=
  match getMarketIndex m env.reloadBooks symbol with
  | (.error e, m1) => (.error e, m1, ev0)
  | (.ok marketIndex, m1) =>
    match GetMarketPrice m1 env symbol with
    | .error e => (.error e, m1, ev0 ++ [.getMarketPrice symbol])
    | .ok price =>
      match env.createOrderResult (closeLongReq m1 env symbol quantity price marketIndex) with
      | .error e =>
        (.error ("平多仓失败: " ++ e), m1,
         ev0 ++ [.getMarketPrice symbol,
                 .createOrder (closeLongReq m1 env symbol quantity price marketIndex)])
      | .ok tx =>
        (.ok { orderId := env.nowMillis, symbol := symbol, status := "PENDING",
               hash := tx.SignedHash },
         m1,
         ev0 ++ [.getMarketPrice symbol,
                 .createOrder (closeLongReq m1 env symbol quantity price marketIndex),
                 .cancelAll symbol])

/-- `CloseLong`. -/
def CloseLong (m : MarketCache) (env : LighterEnv) (symbol : GoStr) (quantity0 : ℚ) :
    Except String OrderResult × MarketCache × List Ev :=
  if quantity0 = 0 then
    match GetPositions env.accountResult with
    | .error e => (.error e, m, [.getPositions])
    | .ok positions =>
      if resolveCloseQuantity positions symbol "long" = 0 then
        (.error ("没有找到 " ++ String.mk symbol ++ " 的多仓"), m, [.getPositions])
      else
        closeLongRest m env symbol (resolveCloseQuantity positions symbol "long") [.getPositions]
  else
    closeLongRest m env symbol quantity0 []

/-- The close order built by `CloseShort`: buy (`IsAsk = 0`), reduce-only
IOC limit order at `price * 1.01`. -/
def closeShortReq (m : MarketCache) (env : LighterEnv) (symbol : GoStr)
    (quantity price : ℚ) (marketIndex : ℕ) : CreateOrderTxReq :=
  { MarketIndex := marketIndex
    ClientOrderIndex := env.nowMillis
    BaseAmount := convertToBaseAmount m symbol quantity
    Price := convertToLighterPrice m symbol (price * (101 / 100))
    IsAsk := 0
    OrderType := .LimitOrder
    TimeInForce := .ImmediateOrCancel
    ReduceOnly := 1
    TriggerPrice := NilOrderTriggerPrice
    OrderExpiry := NilOrderExpiry }

/-- The part of `CloseShort` after the quantity has been resolved (mirror
of `closeLongRest`). -/
def closeShortRest (m : MarketCache) (env : LighterEnv) (symbol : GoStr)
    (quantity : ℚ) (ev0 : List Ev) : Except String OrderResult × MarketCache × List Ev :=
  match getMarketIndex m env.reloadBooks symbol with
  | (.error e, m1) => (.error e, m1, ev0)
  | (.ok marketIndex, m1) =>
    match GetMarketPrice m1 env symbol with
    | .error e => (.error e, m1, ev0 ++ [.getMarketPrice symbol])
    | .ok price =>
      match env.createOrderResult (closeShortReq m1 env symbol quantity price marketIndex) with
      | .error e =>
        (.error ("平空仓失败: " ++ e), m1,
         ev0 ++ [.getMarketPrice symbol,
                 .createOrder (closeShortReq m1 env symbol quantity price marketIndex)])
      | .ok tx =>
        (.ok { orderId := env.nowMillis, symbol := symbol, status := "PENDING",
               hash := tx.SignedHash },
         m1,
         ev0 ++ [.getMarketPrice symbol,
                 .createOrder (closeShortReq m1 env symbol quantity price marketIndex),
                 .cancelAll symbol])

/-- `CloseShort`. -/
def CloseShort (m : MarketCache) (env : LighterEnv) (symbol : GoStr) (quantity0 : ℚ) :
    Except String OrderResult × MarketCache × List Ev :=
  if quantity0 = 0 then
    match GetPositions env.accountResult with
    | .error e => (.error e, m, [.getPositions])
    | .ok positions =>
      if resolveCloseQuantity positions symbol "short" = 0 then
        (.error ("没有找到 " ++ String.mk symbol ++ " 的空仓"), m, [.getPositions])
      else
        closeShortRest m env symbol (resolveCloseQuantity positions symbol "short") [.getPositions]
  else
    closeShortRest m env symbol quantity0 []

/-- The order built by `OpenLong`: buy (`IsAsk = 0`), non-reduce-only IOC
limit order at `price * 1.01`. -/
def openLongReq (m : MarketCache) (env : LighterEnv) (symbol : GoStr)
    (quantity price : ℚ) (marketIndex : ℕ) : CreateOrderTxReq :=
  { MarketIndex := marketIndex
    ClientOrderIndex := env.nowMillis
    BaseAmount := convertToBaseAmount m symbol quantity
    Price := convertToLighterPrice m symbol (price * (101 / 100))
    IsAsk := 0
    OrderType := .LimitOrder
    TimeInForce := .ImmediateOrCancel
    ReduceOnly := 0
    TriggerPrice := NilOrderTriggerPrice
    OrderExpiry := NilOrderExpiry }

/-- `OpenLong`: best-effort cancel of stale orders (error only logged),
set leverage (error aborts), resolve market index, fetch the price, then
submit the marketable buy. -/
def OpenLong (m : MarketCache) (env : LighterEnv) (symbol : GoStr) (quantity : ℚ)
    (leverage : ℤ) : Except String OrderResult × MarketCache × List Ev :=
  match SetLeverage m env symbol leverage with
  | (.error e, m1, evL) => (.error e, m1, .cancelAll symbol :: evL)
  | (.ok _, m1, evL) =>
    match getMarketIndex m1 env.reloadBooks symbol with
    | (.error e, m2) => (.error e, m2, .cancelAll symbol :: evL)
    | (.ok marketIndex, m2) =>
      match GetMarketPrice m2 env symbol with
      | .error e => (.error e, m2, .cancelAll symbol :: evL ++ [.getMarketPrice symbol])
      | .ok price =>
        match env.createOrderResult (openLongReq m2 env symbol quantity price marketIndex) with
        | .error e =>
          (.error ("开多仓失败: " ++ e), m2,
           .cancelAll symbol :: evL ++
             [.getMarketPrice symbol,
              .createOrder (openLongReq m2 env symbol quantity price marketIndex)])
        | .ok tx =>
          (.ok { orderId := env.nowMillis, symbol := symbol, status := "PENDING",
                 hash := tx.SignedHash },
           m2,
           .cancelAll symbol :: evL ++
             [.getMarketPrice symbol,
              .createOrder (openLongReq m2 env symbol quantity price marketIndex)])

/-! ### Helper lemmas -/

/-- For nonnegative arguments truncation toward zero is the floor. -/
theorem truncQ_eq_floor (q : ℚ) (h : 0 ≤ q) : truncQ q = ⌊q⌋ := by
  unfold truncQ
  rw [Int.tdiv_eq_ediv (Rat.num_nonneg.mpr h) (by positivity), Rat.floor_def]

/-- Truncation of an integer value is that integer. -/
theorem truncQ_intCast (n : ℤ) : truncQ (n : ℚ) = n := by
  unfold truncQ
  rw [Rat.num_intCast, Rat.den_intCast]
  exact Int.tdiv_one n

/-- For a positive leverage the computed IMF is the integer quotient
`10000 / leverage` (in range, so the `uint16` conversion is lossless). -/
theorem computeIMF_pos (L : ℤ) (hL : 1 ≤ L) : computeIMF L = some (10000 / L) := by
  unfold computeIMF
  rw [if_neg (by omega), Int.tdiv_eq_ediv (by norm_num) (by omega)]
  congr 1
  apply Int.emod_eq_of_lt
  · exact Int.ediv_nonneg (by norm_num) (by omega)
  · have h1 : (10000 : ℤ) / L ≤ 10000 := Int.ediv_le_self L (by norm_num)
    omega

/-- When no position matches the symbol and side, the resolution loop
leaves the quantity at 0. -/
theorem resolveCloseQuantity_eq_zero (positions : List PositionOut) (symbol : GoStr)
    (side : String) (h : ∀ p ∈ positions, ¬ (p.symbol = symbol ∧ p.side = side)) :
    resolveCloseQuantity positions symbol side = 0 := by
  induction positions with
  | nil => rfl
  | cons p rest ih =>
    simp only [resolveCloseQuantity]
    rw [if_neg (h p (by simp))]
    exact ih (fun x hx => h x (by simp [hx]))

/-- In the post-resolution part of `CloseLong`, whenever the submission
step was reached, the cancel-all event is in the trace iff the submission
succeeded. -/
theorem closeLongRest_cancel_iff (m : MarketCache) (env : LighterEnv) (symbol : GoStr)
    (quantity : ℚ) (ev0 : List Ev)
    (h0 : ∀ r, Ev.createOrder r ∉ ev0) (h1 : Ev.cancelAll symbol ∉ ev0) :
    ∀ req, Ev.createOrder req ∈ (closeLongRest m env symbol quantity ev0).2.2 →
      (Ev.cancelAll symbol ∈ (closeLongRest m env symbol quantity ev0).2.2 ↔
        ∃ tx, env.createOrderResult req = Except.ok tx) := by
  rcases hgm : getMarketIndex m env.reloadBooks symbol with ⟨gmr, m1⟩
  cases gmr with
  | error e =>
    simp only [closeLongRest, hgm]
    intro req hreq
    exact absurd hreq (h0 req)
  | ok marketIndex =>
    cases hp : GetMarketPrice m1 env symbol with
    | error e =>
      simp only [closeLongRest, hgm, hp]
      intro req hreq
      simp only [List.mem_append, List.mem_singleton] at hreq
      rcases hreq with h | h
      · exact absurd h (h0 req)
      · exact absurd h (by simp)
    | ok price =>
      cases hco : env.createOrderResult (closeLongReq m1 env symbol quantity price marketIndex) with
      | error e =>
        simp only [closeLongRest, hgm, hp, hco]
        intro req hreq
        simp only [List.mem_append, List.mem_singleton, List.mem_cons,
          List.not_mem_nil, or_false] at hreq
        rcases hreq with h | h | h
        · exact absurd h (h0 req)
        · exact absurd h (by simp)
        · have hr : req = closeLongReq m1 env symbol quantity price marketIndex := by
            injection h
          subst hr
          constructor
          · intro hmem
            simp only [List.mem_append, List.mem_singleton, List.mem_cons,
              List.not_mem_nil, or_false] at hmem
            rcases hmem with h' | h' | h'
            · exact absurd h' h1
            · exact absurd h' (by simp)
            · exact absurd h' (by simp)
          · rintro ⟨tx, htx⟩
            rw [hco] at htx
            exact absurd htx (by simp)
      | ok tx =>
        simp only [closeLongRest, hgm, hp, hco]
        intro req hreq
        simp only [List.mem_append, List.mem_singleton, List.mem_cons,
          List.not_mem_nil, or_false] at hreq
        have hr : req = closeLongReq m1 env symbol quantity price marketIndex := by
          rcases hreq with h | h | h | h
          · exact absurd h (h0 req)
          · exact absurd h (by simp)
          · injection h
          · exact absurd h (by simp)
        subst hr
        constructor
        · intro _
          exact ⟨tx, hco⟩
        · intro _
          simp

/-- Mirror of `closeLongRest_cancel_iff` for `CloseShort`. -/
theorem closeShortRest_cancel_iff (m : MarketCache) (env : LighterEnv) (symbol : GoStr)
    (quantity : ℚ) (ev0 : List Ev)
    (h0 : ∀ r, Ev.createOrder r ∉ ev0) (h1 : Ev.cancelAll symbol ∉ ev0) :
    ∀ req, Ev.createOrder req ∈ (closeShortRest m env symbol quantity ev0).2.2 →
      (Ev.cancelAll symbol ∈ (closeShortRest m env symbol quantity ev0).2.2 ↔
        ∃ tx, env.createOrderResult req = Except.ok tx) := by
  rcases hgm : getMarketIndex m env.reloadBooks symbol with ⟨gmr, m1⟩
  cases gmr with
  | error e =>
    simp only [closeShortRest, hgm]
    intro req hreq
    exact absurd hreq (h0 req)
  | ok marketIndex =>
    cases hp : GetMarketPrice m1 env symbol with
    | error e =>
      simp only [closeShortRest, hgm, hp]
      intro req hreq
      simp only [List.mem_append, List.mem_singleton] at hreq
      rcases hreq with h | h
      · exact absurd h (h0 req)
      · exact absurd h (by simp)
    | ok price =>
      cases hco : env.createOrderResult (closeShortReq m1 env symbol quantity price marketIndex) with
      | error e =>
        simp only [closeShortRest, hgm, hp, hco]
        intro req hreq
        simp only [List.mem_append, List.mem_singleton, List.mem_cons,
          List.not_mem_nil, or_false] at hreq
        rcases hreq with h | h | h
        · exact absurd h (h0 req)
        · exact absurd h (by simp)
        · have hr : req = closeShortReq m1 env symbol quantity price marketIndex := by
            injection h
          subst hr
          constructor
          · intro hmem
            simp only [List.mem_append, List.mem_singleton, List.mem_cons,
              List.not_mem_nil, or_false] at hmem
            rcases hmem with h' | h' | h'
            · exact absurd h' h1
            · exact absurd h' (by simp)
            · exact absurd h' (by simp)
          · rintro ⟨tx, htx⟩
            rw [hco] at htx
            exact absurd htx (by simp)
      | ok tx =>
        simp only [closeShortRest, hgm, hp, hco]
        intro req hreq
        simp only [List.mem_append, List.mem_singleton, List.mem_cons,
          List.not_mem_nil, or_false] at hreq
        have hr : req = closeShortReq m1 env symbol quantity price marketIndex := by
          rcases hreq with h | h | h | h
          · exact absurd h (h0 req)
          · exact absurd h (by simp)
          · injection h
          · exact absurd h (by simp)
        subst hr
        constructor
        · intro _
          exact ⟨tx, hco⟩
        · intro _
          simp

/-! ### Concrete fixtures for counterexamples and witnesses -/

/-- The empty cache (`make(map[string]*lighterOrderBook)`). -/
def emptyCache : MarketCache := fun _ => none

/-- An ETH market record with 4 size decimals and 2 price decimals. -/
def bookETH : lighterOrderBook :=
  { Symbol := "ETH".toList, MarketID := 1, SupportedSizeDecimals := 4,
    SupportedPriceDecimals := 2 }

/-- A cache holding exactly the ETH market. -/
def cacheETH : MarketCache := cacheInsert emptyCache "ETH".toList bookETH

/-- A market record for a market that has been delisted. -/
def bookOLD : lighterOrderBook :=
  { Symbol := "OLD".toList, MarketID := 7, SupportedSizeDecimals := 3,
    SupportedPriceDecimals := 2 }

/-- A cache holding exactly the delisted market. -/
def cacheWithOLD : MarketCache := cacheInsert emptyCache "OLD".toList bookOLD

/-- A successful transaction-construction result. -/
def txOk : TxInfo := { SignedHash := "0xabc" }

/-- An environment in which every external call succeeds. -/
def envAllOk : LighterEnv :=
  { accountResult := .ok []
    reloadBooks := .error "down"
    priceResult := .ok 3000
    updateLeverageResult := fun _ => .ok txOk
    createOrderResult := fun _ => .ok txOk
    cancelAllResult := fun _ => .ok txOk
    nowMillis := 17 }

/-- Like `envAllOk` but order submission fails. -/
def envSubmitFail : LighterEnv :=
  { envAllOk with createOrderResult := fun _ => .error "boom" }

/-- Like `envAllOk` but the leverage update fails. -/
def envLevFail : LighterEnv :=
  { envAllOk with updateLeverageResult := fun _ => .error "lev" }

/-- An account position whose parsed quantity is positive (+1) while its
`Sign` field is negative. -/
def posSignMismatch : lighterAccountPosition :=
  { Symbol := "ETH".toList, Sign := -1, Position := 1, AvgEntryPrice := 0,
    PositionValue := 3000, UnrealizedPnl := 0, LiquidationPrice := 0,
    InitialMarginFraction := 2 }

/-- Whether a trace contains an order-submission event. -/
def hasCreateOrder : List Ev → Bool
  | [] => false
  | .createOrder _ :: _ => true
  | _ :: rest => hasCreateOrder rest

/-- Whether a trace contains a cancel-all event. -/
def hasCancelAll : List Ev → Bool
  | [] => false
  | .cancelAll _ :: _ => true
  | _ :: rest => hasCancelAll rest

/-! ### Claim theorems -/

/-- C1 counterexample: a successful reload that fetches an empty market
list leaves the previously cached (now delisted) market "OLD" in the
cache, although "OLD" does not appear in the freshly fetched list — so a
coin key can be present in the cache without appearing in the fresh
market list, refuting the wholesale-replacement claim. -/
theorem C1_reload_keeps_stale_counterexample :
    loadMarketInfo cacheWithOLD (Except.ok []) = Except.ok cacheWithOLD ∧
    cacheWithOLD ("OLD".toList) = some bookOLD ∧
    ¬ ("OLD".toList ∈ ([] : List lighterOrderBook).map lighterOrderBook.Symbol) :=
  ⟨rfl, by decide, by simp⟩

/-- C1 amended: a reload of the market metadata cache fetches the full
market list and inserts every fetched market into the existing cache map,
an incremental merge: after a successful reload a coin key is present in
the cache iff it appears in the freshly fetched market list or was
already present before; stale entries for delisted markets are never
removed. -/
theorem C1_reload_merges_incrementally (m : MarketCache) (books : List lighterOrderBook)
    (k : GoStr) :
    loadMarketInfo m (Except.ok books) = Except.ok (storeOrderBooks m books) ∧
    ((storeOrderBooks m books) k ≠ none ↔
      k ∈ books.map lighterOrderBook.Symbol ∨ m k ≠ none) := by
  refine ⟨rfl, ?_⟩
  induction books generalizing m with
  | nil => simp [storeOrderBooks]
  | cons b bs ih =>
    have hstep : storeOrderBooks m (b :: bs) = storeOrderBooks (cacheInsert m b.Symbol b) bs := rfl
    rw [hstep, ih]
    by_cases hk : k = b.Symbol
    · subst hk
      simp [cacheInsert]
    · simp [cacheInsert, hk]

/-- C2 counterexample: in a run of `CloseLong` in which everything up to
the close-order submission succeeds but the submission itself fails, the
submission step is reached (a create-order event is in the trace) yet no
cancel-all is performed afterwards — the function returns the submission
error at once, refuting "cancel-all regardless of success or failure". -/
theorem C2_no_cancel_after_failed_submit_counterexample :
    hasCreateOrder (CloseLong cacheETH envSubmitFail ("ETHUSDT".toList) 1).2.2 = true ∧
    hasCancelAll (CloseLong cacheETH envSubmitFail ("ETHUSDT".toList) 1).2.2 = false ∧
    (CloseLong cacheETH envSubmitFail ("ETHUSDT".toList) 1).1 =
      Except.error "平多仓失败: boom" := by
  refine ⟨?_, ?_, ?_⟩ <;>
    simp [CloseLong, closeLongRest, GetMarketPrice, getMarketIndex, cacheETH, cacheInsert,
      emptyCache, envSubmitFail, envAllOk, hasCreateOrder, hasCancelAll,
      show convertSymbolToLighterCoin (['E','T','H','U','S','D','T']) = ['E','T','H'] from by decide]

/-- C2 amended: in every execution of `CloseLong` (and of `CloseShort`),
once the close-order submission step has been reached, the best-effort
cancel-all on the symbol is performed afterwards iff that submission
succeeded; when the submission fails the function returns the error
immediately and no cancel-all is issued. -/
theorem C2_cancel_iff_submission_succeeded (m : MarketCache) (env : LighterEnv)
    (symbol : GoStr) (q : ℚ) :
    (∀ req, Ev.createOrder req ∈ (CloseLong m env symbol q).2.2 →
      (Ev.cancelAll symbol ∈ (CloseLong m env symbol q).2.2 ↔
        ∃ tx, env.createOrderResult req = Except.ok tx)) ∧
    (∀ req, Ev.createOrder req ∈ (CloseShort m env symbol q).2.2 →
      (Ev.cancelAll symbol ∈ (CloseShort m env symbol q).2.2 ↔
        ∃ tx, env.createOrderResult req = Except.ok tx)) := by
  constructor
  · unfold CloseLong
    by_cases hq : q = 0
    · rw [if_pos hq]
      cases hacct : GetPositions env.accountResult with
      | error e =>
        intro req hreq
        exact absurd hreq (by simp)
      | ok positions =>
        dsimp only
        by_cases hz : resolveCloseQuantity positions symbol "long" = 0
        · rw [if_pos hz]
          intro req hreq
          exact absurd hreq (by simp)
        · rw [if_neg hz]
          exact closeLongRest_cancel_iff m env symbol _ _ (by simp) (by simp)
    · rw [if_neg hq]
      exact closeLongRest_cancel_iff m env symbol _ _ (by simp) (by simp)
  · unfold CloseShort
    by_cases hq : q = 0
    · rw [if_pos hq]
      cases hacct : GetPositions env.accountResult with
      | error e =>
        intro req hreq
        exact absurd hreq (by simp)
      | ok positions =>
        dsimp only
        by_cases hz : resolveCloseQuantity positions symbol "short" = 0
        · rw [if_pos hz]
          intro req hreq
          exact absurd hreq (by simp)
        · rw [if_neg hz]
          exact closeShortRest_cancel_iff m env symbol _ _ (by simp) (by simp)
    · rw [if_neg hq]
      exact closeShortRest_cancel_iff m env symbol _ _ (by simp) (by simp)

/-- C2 witness: in a fully successful `CloseLong` run the cancel-all
event does appear after the submission, obtained from the amended
theorem at a concrete input. -/
theorem C2_cancel_iff_submission_succeeded_witness :
    Ev.cancelAll ("ETHUSDT".toList) ∈ (CloseLong cacheETH envAllOk ("ETHUSDT".toList) 1).2.2 := by
  have h := (C2_cancel_iff_submission_succeeded cacheETH envAllOk ("ETHUSDT".toList) 1).1
    (closeLongReq cacheETH envAllOk ("ETHUSDT".toList) 1 3000 bookETH.MarketID)
    (by
      simp [CloseLong, closeLongRest, GetMarketPrice, getMarketIndex, cacheETH, cacheInsert,
        emptyCache, envAllOk,
        show convertSymbolToLighterCoin (['E','T','H','U','S','D','T']) = ['E','T','H'] from by
          decide])
  exact h.mpr ⟨txOk, rfl⟩

/-- C3: for every `OpenLong(symbol, quantity, L)` with the coin cached and
the market price resolving to `p`, the engine issues the update-leverage
call with `IMF = 10000 / L` strictly before the order submission, and the
submitted order is a buy (`IsAsk = 0`) IOC limit order with
`ReduceOnly = 0` priced at the encoding of `p * 1.01`; if the leverage
update fails, the workflow aborts with that error and neither a price
fetch nor an order submission occurs. -/
theorem C3_openLong_sequence (m : MarketCache) (env : LighterEnv) (symbol : GoStr)
    (q : ℚ) (L : ℤ) (mi : lighterOrderBook) (p : ℚ)
    (hL : 1 ≤ L)
    (hmi : m (convertSymbolToLighterCoin symbol) = some mi)
    (hp : env.priceResult = Except.ok p) :
    ((∀ r, ∃ tx, env.updateLeverageResult r = Except.ok tx) →
      (OpenLong m env symbol q L).2.2 =
        [Ev.cancelAll symbol,
         Ev.updateLeverage { MarketIndex := mi.MarketID, InitialMarginFraction := 10000 / L,
                             MarginMode := .CrossMargin },
         Ev.getMarketPrice symbol,
         Ev.createOrder (openLongReq m env symbol q p mi.MarketID)] ∧
      (openLongReq m env symbol q p mi.MarketID).IsAsk = 0 ∧
      (openLongReq m env symbol q p mi.MarketID).OrderType = OrderTypeT.LimitOrder ∧
      (openLongReq m env symbol q p mi.MarketID).TimeInForce = TimeInForceT.ImmediateOrCancel ∧
      (openLongReq m env symbol q p mi.MarketID).ReduceOnly = 0 ∧
      (openLongReq m env symbol q p mi.MarketID).Price =
        convertToLighterPrice m symbol (p * (101 / 100))) ∧
    (∀ e, (∀ r, env.updateLeverageResult r = Except.error e) →
      (OpenLong m env symbol q L).1 = Except.error ("设置杠杆失败: " ++ e) ∧
      (∀ s, Ev.getMarketPrice s ∉ (OpenLong m env symbol q L).2.2) ∧
      (∀ r, Ev.createOrder r ∉ (OpenLong m env symbol q L).2.2)) := by
  have hIMF := computeIMF_pos L hL
  constructor
  · intro hok
    obtain ⟨tx, htx⟩ := hok
      { MarketIndex := mi.MarketID, InitialMarginFraction := 10000 / L,
        MarginMode := MarginModeT.CrossMargin }
    have hSL : SetLeverage m env symbol L =
        (Except.ok (), m,
         [Ev.updateLeverage { MarketIndex := mi.MarketID, InitialMarginFraction := 10000 / L,
                              MarginMode := MarginModeT.CrossMargin }]) := by
      simp only [SetLeverage, getMarketIndex, hmi, hIMF, htx]
    refine ⟨?_, rfl, rfl, rfl, rfl, rfl⟩
    simp only [OpenLong, hSL, getMarketIndex, hmi, GetMarketPrice, hp]
    cases hco : env.createOrderResult (openLongReq m env symbol q p mi.MarketID) <;> simp
  · intro e herr
    have hSL : SetLeverage m env symbol L =
        (Except.error ("设置杠杆失败: " ++ e), m,
         [Ev.updateLeverage { MarketIndex := mi.MarketID, InitialMarginFraction := 10000 / L,
                              MarginMode := MarginModeT.CrossMargin }]) := by
      simp only [SetLeverage, getMarketIndex, hmi, hIMF, herr]
    refine ⟨?_, ?_, ?_⟩
    · simp only [OpenLong, hSL]
    · intro s
      simp only [OpenLong, hSL]
      simp
    · intro r
      simp only [OpenLong, hSL]
      simp

/-- C3 witness: the success branch and the abort branch of
`C3_openLong_sequence`, each at a concrete input. -/
theorem C3_openLong_sequence_witness :
    (OpenLong cacheETH envAllOk ("ETHUSDT".toList) (1 / 100) 10).2.2 =
      [Ev.cancelAll ("ETHUSDT".toList),
       Ev.updateLeverage { MarketIndex := bookETH.MarketID, InitialMarginFraction := 10000 / 10,
                           MarginMode := .CrossMargin },
       Ev.getMarketPrice ("ETHUSDT".toList),
       Ev.createOrder
         (openLongReq cacheETH envAllOk ("ETHUSDT".toList) (1 / 100) 3000 bookETH.MarketID)] ∧
    (OpenLong cacheETH envLevFail ("ETHUSDT".toList) (1 / 100) 10).1 =
      Except.error ("设置杠杆失败: " ++ "lev") := by
  constructor
  · exact ((C3_openLong_sequence cacheETH envAllOk ("ETHUSDT".toList) (1 / 100) 10 bookETH 3000
      (by norm_num) (by decide) rfl).1 (fun r => ⟨txOk, rfl⟩)).1
  · exact ((C3_openLong_sequence cacheETH envLevFail ("ETHUSDT".toList) (1 / 100) 10 bookETH 3000
      (by norm_num) (by decide) rfl).2 "lev" (fun r => rfl)).1

/-- C4 counterexample: an account position whose parsed raw quantity is
the positive value 1 but whose `Sign` field is negative is reported by
`GetPositions` as a short position — the side is not inferred from the
sign of the raw position quantity, refuting the claim. -/
theorem C4_side_not_from_quantity_counterexample :
    0 < posSignMismatch.Position ∧
    (positionsOf [posSignMismatch]).map PositionOut.side = ["short"] := by
  constructor
  · norm_num [posSignMismatch]
  · simp [positionsOf, mkPositionOut, posSignMismatch]

/-- C4 amended: `GetPositions` keeps exactly the positions with nonzero
raw quantity, and derives side and amount from the separate `Sign` field
of the account record, not from the sign of the raw quantity: `Sign > 0`
yields side long with amount the raw quantity as-is, and `Sign ≤ 0`
yields side short with amount the absolute value of the raw quantity. -/
theorem C4_side_from_sign_field (ps : List lighterAccountPosition)
    (p : lighterAccountPosition) :
    positionsOf ps = (ps.filter (fun x => x.Position ≠ 0)).map mkPositionOut ∧
    (0 < p.Sign →
      (mkPositionOut p).side = "long" ∧ (mkPositionOut p).positionAmt = p.Position) ∧
    (p.Sign ≤ 0 →
      (mkPositionOut p).side = "short" ∧ (mkPositionOut p).positionAmt = |p.Position|) := by
  refine ⟨?_, ?_, ?_⟩
  · induction ps with
    | nil => rfl
    | cons x rest ih =>
      by_cases hx : x.Position = 0
      · simp [positionsOf, hx, List.filter_cons, ih]
      · simp [positionsOf, hx, List.filter_cons, ih]
  · intro hs
    simp [mkPositionOut, if_pos hs]
  · intro hs
    simp [mkPositionOut, if_neg (by omega : ¬ 0 < p.Sign)]

/-- C4 witness: the amended theorem applied to the concrete mismatching
position. -/
theorem C4_side_from_sign_field_witness :
    (mkPositionOut posSignMismatch).side = "short" ∧
    (mkPositionOut posSignMismatch).positionAmt = |posSignMismatch.Position| :=
  (C4_side_from_sign_field [] posSignMismatch).2.2 (by decide)

/-- C5 counterexample: the cancel request `CancelAllOrders` constructs for
one symbol is identical to the one it constructs for a different symbol —
the request does not identify the symbol's market, refuting the claim
that the cancellation is scoped to that symbol. -/
theorem C5_cancel_not_symbol_scoped_counterexample :
    cancelAllRequest ("ETHUSDT".toList) 17 = cancelAllRequest ("BTCUSDT".toList) 17 := rfl

/-- C5 amended: `CancelAllOrders(symbol)` constructs an account-wide
cancel-all request carrying only the time-in-force `ImmediateCancelAll`
and the current timestamp, independent of the symbol argument; it cancels
the account's outstanding orders on every market, not only on the given
symbol. -/
theorem C5_cancel_account_wide (s1 s2 : GoStr) (t : ℤ) (env : LighterEnv) :
    cancelAllRequest s1 t = cancelAllRequest s2 t ∧
    (cancelAllRequest s1 t).TimeInForce = TimeInForceT.ImmediateCancelAll ∧
    (cancelAllRequest s1 t).Time = t ∧
    CancelAllOrders env s1 = CancelAllOrders env s2 :=
  ⟨rfl, rfl, rfl, rfl⟩

/-- C6: for every symbol whose coin key is absent from the market
metadata cache, the numeric codec encodes sizes and prices with the fixed
fallback multiplier `10^4` and returns a result (a total function, no
error path). -/
theorem C6_fallback_precision (m : MarketCache) (symbol : GoStr) (q p : ℚ)
    (h : m (convertSymbolToLighterCoin symbol) = none) :
    convertToBaseAmount m symbol q = truncQ (q * (10 : ℚ) ^ (4 : ℕ)) ∧
    convertToLighterPrice m symbol p = truncQ (p * (10 : ℚ) ^ (4 : ℕ)) := by
  unfold convertToBaseAmount convertToLighterPrice
  rw [h]
  norm_num

/-- C6 witness: on the empty cache an unknown symbol encodes 1.5 as
15000 for both size and price. -/
theorem C6_fallback_precision_witness :
    convertToBaseAmount emptyCache ("FOOUSDT".toList) (3 / 2) = 15000 ∧
    convertToLighterPrice emptyCache ("FOOUSDT".toList) (3 / 2) = 15000 := by
  have h := C6_fallback_precision emptyCache ("FOOUSDT".toList) (3 / 2) (3 / 2) rfl
  constructor
  · rw [h.1, show ((3/2 : ℚ) * (10:ℚ) ^ (4:ℕ)) = ((15000 : ℤ) : ℚ) by norm_num, truncQ_intCast]
  · rw [h.2, show ((3/2 : ℚ) * (10:ℚ) ^ (4:ℕ)) = ((15000 : ℤ) : ℚ) by norm_num, truncQ_intCast]

/-- C7: for a symbol with cached MarketInfo and nonnegative quantity `q`,
`convertToBaseAmount` is the truncation of `q * 10^sizeDecimals` (the
result is within one below the exact product, never rounded up); in
particular with `sizeDecimals = 4` the quantity 1.23456 encodes to 12345,
not 12346. -/
theorem C7_toRawSize_truncates (m : MarketCache) (symbol : GoStr)
    (mi : lighterOrderBook) (q : ℚ)
    (hmi : m (convertSymbolToLighterCoin symbol) = some mi) (hq : 0 ≤ q) :
    ((convertToBaseAmount m symbol q : ℚ) ≤ q * (10 : ℚ) ^ mi.SupportedSizeDecimals ∧
      q * (10 : ℚ) ^ mi.SupportedSizeDecimals < (convertToBaseAmount m symbol q : ℚ) + 1) ∧
    (mi.SupportedSizeDecimals = 4 →
      convertToBaseAmount m symbol (123456 / 100000) = 12345) := by
  constructor
  · simp only [convertToBaseAmount, hmi]
    rw [truncQ_eq_floor _ (by positivity)]
    exact ⟨Int.floor_le _, Int.lt_floor_add_one _⟩
  · intro h4
    simp only [convertToBaseAmount, hmi, h4]
    rw [truncQ_eq_floor _ (by norm_num),
      show ((123456/100000 : ℚ) * (10:ℚ) ^ (4:ℕ)) = (61728/5 : ℚ) by norm_num]
    norm_num [Int.floor_eq_iff]

/-- C7 witness: on the ETH market (4 size decimals) the quantity 1.23456
encodes to 12345. -/
theorem C7_toRawSize_truncates_witness :
    convertToBaseAmount cacheETH ("ETHUSDT".toList) (123456 / 100000) = 12345 :=
  (C7_toRawSize_truncates cacheETH ("ETHUSDT".toList) bookETH (123456 / 100000)
    (by decide) (by norm_num)).2 rfl

/-- C8: `CloseLong(symbol, 0)` with no long position on that symbol in
the fetched account snapshot fails with the no-position error and never
issues an order submission. -/
theorem C8_noPositionToClose (m : MarketCache) (env : LighterEnv) (symbol : GoStr)
    (ps : List lighterAccountPosition)
    (hacct : env.accountResult = Except.ok ps)
    (hnone : ∀ p ∈ positionsOf ps, ¬ (p.symbol = symbol ∧ p.side = "long")) :
    (CloseLong m env symbol 0).1 =
      Except.error ("没有找到 " ++ String.mk symbol ++ " 的多仓") ∧
    ∀ r, Ev.createOrder r ∉ (CloseLong m env symbol 0).2.2 := by
  have hres := resolveCloseQuantity_eq_zero (positionsOf ps) symbol "long" hnone
  have hCL : CloseLong m env symbol 0 =
      (Except.error ("没有找到 " ++ String.mk symbol ++ " 的多仓"), m, [Ev.getPositions]) := by
    simp only [CloseLong, if_pos rfl, GetPositions, hacct, if_pos hres]
    simp
  rw [hCL]
  exact ⟨rfl, by intro r; simp⟩

/-- C8 witness: with an empty account snapshot, `CloseLong` at quantity 0
returns the no-position error. -/
theorem C8_noPositionToClose_witness :
    (CloseLong cacheETH envAllOk ("ETHUSDT".toList) 0).1 =
      Except.error ("没有找到 " ++ String.mk ("ETHUSDT".toList) ++ " 的多仓") :=
  (C8_noPositionToClose cacheETH envAllOk ("ETHUSDT".toList) [] rfl
    (by simp [positionsOf])).1

/-- C9: the IMF is the unguarded integer division `10000 / leverage`: for
every leverage ≥ 1 it is well-defined and equals `10000 / L`, leverage 0
is a division by zero (the computation panics), and `SetLeverage` applies
it without any guard — calling `SetLeverage` with leverage 0 on a cached
market reaches the divide-by-zero, so leverage > 0 is an unchecked
precondition. -/
theorem C9_imf_unguarded_division (L : ℤ) (hL : 1 ≤ L) :
    computeIMF L = some (10000 / L) ∧
    computeIMF 0 = none ∧
    ∀ (m : MarketCache) (env : LighterEnv) (symbol : GoStr) (mi : lighterOrderBook),
      m (convertSymbolToLighterCoin symbol) = some mi →
      (SetLeverage m env symbol 0).1 = Except.error "runtime error: integer divide by zero" := by
  refine ⟨computeIMF_pos L hL, rfl, ?_⟩
  intro m env symbol mi hmi
  simp only [SetLeverage, getMarketIndex, hmi]
  rfl

/-- C9 witness: leverage 10 yields IMF 1000; leverage 0 on the ETH cache
reaches the divide-by-zero. -/
theorem C9_imf_unguarded_division_witness :
    computeIMF 10 = some 1000 ∧
    (SetLeverage cacheETH envAllOk ("ETHUSDT".toList) 0).1 =
      Except.error "runtime error: integer divide by zero" := by
  have h := C9_imf_unguarded_division 10 (by norm_num)
  refine ⟨?_, h.2.2 cacheETH envAllOk ("ETHUSDT".toList) bookETH (by decide)⟩
  rw [h.1]
  norm_num

/-- C10: the coin key strips a trailing "USDT" exactly when the symbol is
strictly longer than 4 characters: every nonempty coin followed by "USDT"
maps to the coin, any symbol of length ≤ 4 (including "USDT" itself) and
any symbol not ending in "USDT" (such as "ETH") are used unchanged. -/
theorem C10_coin_key :
    (∀ c : GoStr, c ≠ [] → convertSymbolToLighterCoin (c ++ "USDT".toList) = c) ∧
    (∀ s : GoStr, s.length ≤ 4 → convertSymbolToLighterCoin s = s) ∧
    (∀ s : GoStr, s.drop (s.length - 4) ≠ "USDT".toList → convertSymbolToLighterCoin s = s) ∧
    convertSymbolToLighterCoin ("USDT".toList) = "USDT".toList ∧
    convertSymbolToLighterCoin ("ETH".toList) = "ETH".toList := by
  refine ⟨?_, ?_, ?_, by decide, by decide⟩
  · intro c hc
    have hpos : 0 < c.length := List.length_pos.mpr hc
    have h4 : ("USDT".toList : GoStr).length = 4 := rfl
    have hlen : (c ++ "USDT".toList).length = c.length + 4 := by
      rw [List.length_append, h4]
    unfold convertSymbolToLighterCoin
    rw [if_pos]
    · rw [hlen, Nat.add_sub_cancel]
      exact List.take_left c "USDT".toList
    · constructor
      · omega
      · rw [hlen, Nat.add_sub_cancel]
        exact List.drop_left c "USDT".toList
  · intro s hs
    unfold convertSymbolToLighterCoin
    rw [if_neg]
    intro hcond
    omega
  · intro s hs
    unfold convertSymbolToLighterCoin
    rw [if_neg]
    intro hcond
    exact hs hcond.2

/-- C10 witness: "ETH" ++ "USDT" maps to "ETH". -/
theorem C10_coin_key_witness :
    convertSymbolToLighterCoin ("ETH".toList ++ "USDT".toList) = "ETH".toList :=
  C10_coin_key.1 ("ETH".toList) (by decide)
